import Mathlib

/-!
Verification development for the LDA job-orchestration core of this
repository (`catalog/services/lda.py`).

The Python module is shallowly embedded:

* JSON-like response payloads (the result of `resp.model_dump()`) become the
  inductive type `Json`; Python dict/attribute/subscript operations on them
  become `Except PyErr`-valued functions that mirror CPython's behaviour
  (`.get` on a non-dict raises `AttributeError`, `d[k]` on a missing key
  raises `KeyError`, iteration of a non-iterable raises `TypeError`,
  truthiness follows Python truthiness).
* Filesystem paths are lists of path components (POSIX model, `/` separator).
  `Path.resolve()` is modelled for a symlink-free filesystem with an
  already-resolved absolute `job_dir`, so resolving `job_dir / name` for a
  single component `name` only has to interpret `..`, `.` and the empty
  component (`resolveJoin`).
* The side effects of `run_lda_from_csv` (directory creation, the two
  network calls of the remote execution client, per-artifact downloads, byte
  writes) are recorded as an explicit `Event` trace, and each `raise` site of
  the source becomes a constructor of `LdaError`.  The spec's error taxonomy
  names (`ConfigurationError`, `InputNotFoundError`, `PathEscapeError`) are
  used for the constructors that correspond to the source's raise sites; the
  constructor `pathEscape` exists only so that the spec's claimed rejection
  can be stated — the source has no corresponding raise site.
* `str.strip()` is modelled on its ASCII whitespace set (U+0009–U+000D,
  U+001C–U+001F, U+0020); whitespace outside that set is not modelled, which
  is irrelevant for every statement below.
-/

/-- JSON-like values, the shape of `resp.model_dump()` payloads.  Python
`None`/`bool`/`int`/`str`/`list`/`dict` become the six constructors; dict
insertion order is kept as an association list. -/
inductive Json where
  | null : Json
  | bool (b : Bool) : Json
  | num (n : Int) : Json
  | str (s : String) : Json
  | arr (elems : List Json) : Json
  | obj (fields : List (String × Json)) : Json

/-- Python exceptions that the embedded fragments can raise. -/
inductive PyErr where
  | keyError : PyErr
  | attributeError : PyErr
  | typeError : PyErr
deriving DecidableEq, Repr

/-- Python truthiness of a `Json` value (`bool(x)`). -/
def truthy : Json → Bool
  | .null => false
  | .bool b => b
  | .num n => n != 0
  | .str s => s != ""
  | .arr l => !l.isEmpty
  | .obj l => !l.isEmpty

/-- Python `x or y` on `Json` values. -/
def pyOr (x y : Json) : Json := if truthy x then x else y

/-- Lookup of a key in a dict body with a default (first binding wins,
which is the only case for Python dicts since keys are unique). -/
def objGetD (kvs : List (String × Json)) (k : String) (d : Json) : Json :=
  match kvs.find? (fun kv => kv.1 == k) with
  | some kv => kv.2
  | none => d

/-- Python `x.get(k, d)`: dict lookup with default; `AttributeError` when
`x` is not a dict. -/
def jGetD : Json → String → Json → Except PyErr Json
  | .obj kvs, k, d => .ok (objGetD kvs k d)
  | _, _, _ => .error .attributeError

/-- Python `x[k]` for a string key: dict lookup, `KeyError` when the key is
missing, `TypeError` when `x` is not subscriptable by a string. -/
def jIndex : Json → String → Except PyErr Json
  | .obj kvs, k =>
      match kvs.find? (fun kv => kv.1 == k) with
      | some kv => .ok kv.2
      | none => .error .keyError
  | _, _ => .error .typeError

/-- Python iteration `for v in x`: lists yield their elements, strings yield
their characters as one-character strings, dicts yield their keys, and
everything else raises `TypeError`. -/
def jIter : Json → Except PyErr (List Json)
  | .arr l => .ok l
  | .str s => .ok (s.data.map (fun c => .str (String.mk [c])))
  | .obj kvs => .ok (kvs.map (fun kv => .str kv.1))
  | _ => .error .typeError

/-- Python `x == "lit"` for a string literal: true exactly when `x` is that
string. -/
def jEqStr (j : Json) (s : String) : Bool :=
  match j with
  | .str t => t == s
  | _ => false

mutual

/-- Structural equality of `Json` values: same constructor, same value.
This is NOT Python `==` — Python additionally identifies `bool` with `int`
(`True == 1`, `False == 0`); that relation is `pyEqHashable` below.
`jsonBeq` is used to state structural distinctness of payload values. -/
def jsonBeq : Json → Json → Bool
  | .null, .null => true
  | .bool a, .bool b => a == b
  | .num a, .num b => a == b
  | .str a, .str b => a == b
  | .arr a, .arr b => jsonListBeq a b
  | .obj a, .obj b => jsonObjBeq a b
  | _, _ => false

def jsonListBeq : List Json → List Json → Bool
  | [], [] => true
  | x :: xs, y :: ys => jsonBeq x y && jsonListBeq xs ys
  | _, _ => false

def jsonObjBeq : List (String × Json) → List (String × Json) → Bool
  | [], [] => true
  | (k, v) :: xs, (l, w) :: ys => k == l && jsonBeq v w && jsonObjBeq xs ys
  | _, _ => false

end

/-! ## The filename sanitizer `_safe_filename`

Source (`catalog/services/lda.py`, lines 62–66):
```
def _safe_filename(name: str) -> str:
    name = (name or "").strip()
    name = Path(name).name
    name = re.sub(r"[^A-Za-z0-9._-]+", "_", name)
    return name or "output"
```
-/

/-- Membership in the ASCII whitespace set stripped by `str.strip()`
(U+0009–U+000D, U+001C–U+001F and the space). -/
def isPySpace (c : Char) : Bool :=
  c == ' ' || c == '\t' || c == '\n' || c == '\r' || c == '\x0b' ||
  c == '\x0c' || c == '\x1c' || c == '\x1d' || c == '\x1e' || c == '\x1f'

/-- Python `s.strip()` on the modelled whitespace set. -/
def pyStrip (s : String) : String :=
  String.mk (((s.data.dropWhile isPySpace).reverse.dropWhile isPySpace).reverse)

/-- Characters kept verbatim by the sanitizer's regular expression class
`[A-Za-z0-9._-]`. -/
def isAllowedChar (c : Char) : Bool :=
  c.isAlpha || c.isDigit || c == '.' || c == '_' || c == '-'

/-- Core of `re.sub(r"[^A-Za-z0-9._-]+", "_", ·)`: a maximal run of
disallowed characters is replaced by a single underscore.  The flag records
whether the previous character was part of such a run. -/
def subChars : List Char → Bool → List Char
  | [], _ => []
  | c :: rest, inRun =>
    if isAllowedChar c then c :: subChars rest false
    else if inRun then subChars rest true
    else '_' :: subChars rest true

/-- Python `re.sub(r"[^A-Za-z0-9._-]+", "_", s)`. -/
def pySubDisallowed (s : String) : String :=
  String.mk (subChars s.data false)

/-- Accumulator loop computing `PurePosixPath(s).name`: `cur` is the current
component (reversed), `best` the most recent component that was neither
empty nor the `.` component (reversed).  pathlib drops empty and `.`
components while parsing and `name` is the last remaining component. -/
def posixNameAux : List Char → List Char → List Char → List Char
  | [], cur, best => if cur = [] ∨ cur = ['.'] then best else cur
  | c :: rest, cur, best =>
    if c = '/' then
      posixNameAux rest [] (if cur = [] ∨ cur = ['.'] then best else cur)
    else
      posixNameAux rest (c :: cur) best

/-- Python `Path(s).name` on a POSIX host: the final path component, with
empty and `.` components dropped (so `Path("..").name = ".."` but
`Path(".").name = ""` and `Path("a/").name = "a"`). -/
def posixName (s : String) : String :=
  String.mk (posixNameAux s.data [] []).reverse

/-- The sanitizer `_safe_filename` of the source, composed exactly as its
four lines are: strip, keep the final path component, replace disallowed
character runs, fall back to the literal `"output"` when empty.  The
`(name or "")` of the source is handled by `safeFilenameJ` below, where the
argument is still a `Json` value. -/
def safe_filename (name : String) : String :=
  let stripped := pyStrip name
  let base := posixName stripped
  let subbed := pySubDisallowed base
  if subbed = "" then "output" else subbed

/-- The sanitizer as applied inside `run_lda_from_csv`, where the argument
`c["filename"]` is an arbitrary `Json` value: `(name or "")` maps falsy
values to the empty string, and `.strip()` on a truthy non-string raises
`AttributeError`. -/
def safeFilenameJ (j : Json) : Except PyErr String :=
  if truthy j then
    match j with
    | .str s => .ok (safe_filename s)
    | _ => .error .attributeError
  else .ok (safe_filename "")

/-! ## The citation extractor `_extract_container_file_citations`

Source (`catalog/services/lda.py`, lines 69–96): a scan over
`resp_dict["output"]` collecting `container_file_citation` annotations of
`message` items, followed by deduplication on `(container_id, file_id)`
with a `seen` set.
-/

/-- One collected citation dict
`{"container_id": ..., "file_id": ..., "filename": ...}`.  The source
annotates the values as `str` but never converts them, so they stay
arbitrary `Json` values here. -/
structure Citation where
  container_id : Json
  file_id : Json
  filename : Json

/-- Processing of a single annotation: a dict whose `type` is the string
`"container_file_citation"` yields a citation whose `filename` defaults to
`ann["file_id"]` when the `"filename"` key is absent
(`ann.get("filename", ann["file_id"])`); a missing `container_id` or
`file_id` raises `KeyError`; any other annotation dict is skipped. -/
def collectFromAnn (ann : Json) : Except PyErr (Option Citation) := do
  let t ← jGetD ann "type" .null
  if jEqStr t "container_file_citation" then
    let cid ← jIndex ann "container_id"
    let fid ← jIndex ann "file_id"
    let fn ← jGetD ann "filename" fid
    pure (some ⟨cid, fid, fn⟩)
  else
    pure none

/-- The inner annotation loop, in iteration order. -/
def collectAnns : List Json → Except PyErr (List Citation)
  | [] => .ok []
  | a :: rest => do
    let c ← collectFromAnn a
    let cs ← collectAnns rest
    pure (match c with | some x => x :: cs | none => cs)

/-- Processing of one content part:
`for ann in part.get("annotations", []) or []`. -/
def collectFromPart (part : Json) : Except PyErr (List Citation) := do
  let anns := pyOr (← jGetD part "annotations" (.arr [])) (.arr [])
  let l ← jIter anns
  collectAnns l

/-- The content-part loop of one message item. -/
def collectParts : List Json → Except PyErr (List Citation)
  | [] => .ok []
  | p :: rest => do
    let a ← collectFromPart p
    let b ← collectParts rest
    pure (a ++ b)

/-- Processing of one output item: items whose `type` is not the string
`"message"` are skipped (`if item.get("type") != "message": continue`),
message items have their content parts scanned. -/
def collectFromItem (item : Json) : Except PyErr (List Citation) := do
  let t ← jGetD item "type" .null
  if jEqStr t "message" then
    let content := pyOr (← jGetD item "content" (.arr [])) (.arr [])
    let parts ← jIter content
    collectParts parts
  else
    pure []

/-- The outer output-item loop. -/
def collectItems : List Json → Except PyErr (List Citation)
  | [] => .ok []
  | i :: rest => do
    let a ← collectFromItem i
    let b ← collectItems rest
    pure (a ++ b)

/-- The first phase of the extractor: the raw citation list `out` built by
the nested loops over `resp_dict.get("output", []) or []`. -/
def collectCitations (resp : Json) : Except PyErr (List Citation) := do
  let out := pyOr (← jGetD resp "output" (.arr [])) (.arr [])
  let items ← jIter out
  collectItems items

/-- The deduplication key `k = (x["container_id"], x["file_id"])`. -/
def citKey (c : Citation) : Json × Json := (c.container_id, c.file_id)

/-- Structural equality of deduplication keys (pairwise `jsonBeq`); for
string-valued identifiers this coincides with Python `==`.  Used to state
structural distinctness of keys; the dedup loop itself compares keys with
`keyPyEq` below. -/
def keyBeq (a b : Json × Json) : Bool :=
  jsonBeq a.1 b.1 && jsonBeq a.2 b.2

/-- Python hashability of a payload value: `list` and `dict` are
unhashable — hashing one (as `k in seen` and `seen.add(k)` do through the
key tuple) raises `TypeError: unhashable type`; `None`, `bool`, `int` and
`str` are hashable. -/
def jsonHashable : Json → Bool
  | .arr _ => false
  | .obj _ => false
  | _ => true

/-- Canonical form realising Python's identification of `bool` with `int`
(`bool` is an `int` subclass, so `True == 1`, `False == 0`, and
`hash(True) == hash(1)`): booleans map to their numeric value. -/
def pyCanon : Json → Json
  | .bool b => .num (if b then 1 else 0)
  | j => j

/-- Python `==` on hashable payload values (`None`, `bool`, `int`, `str`):
structural equality of the bool-to-int canonical forms.  Only applied to
values that passed the hashability test. -/
def pyEqHashable (a b : Json) : Bool := jsonBeq (pyCanon a) (pyCanon b)

/-- Python `==` on deduplication key tuples (componentwise, for hashable
components). -/
def keyPyEq (a b : Json × Json) : Bool :=
  pyEqHashable a.1 b.1 && pyEqHashable a.2 b.2

/-- The canonical form of a key, characterising `keyPyEq` as an equality. -/
def canonKey (k : Json × Json) : Json × Json := (pyCanon k.1, pyCanon k.2)

/-- The second phase of the extractor: the `seen`-set loop keeping the
first occurrence of every key.  The set is modelled as the list of keys
added so far.  Behaviour of one iteration, as in CPython: `k in seen`
first hashes the tuple `k`, raising `TypeError` when `container_id` or
`file_id` is unhashable (a list or dict) — even when the set is empty —
and otherwise tests membership by Python `==`, which identifies `True`
with `1` and `False` with `0` (equal builtins hash equally, so hash
buckets never separate `==`-equal keys). -/
def dedupAux (seen : List (Json × Json)) : List Citation → Except PyErr (List Citation)
  | [] => .ok []
  | c :: rest =>
    if jsonHashable c.container_id && jsonHashable c.file_id then
      if seen.any (fun s => keyPyEq s (citKey c)) then dedupAux seen rest
      else
        match dedupAux (citKey c :: seen) rest with
        | .error e => .error e
        | .ok out => .ok (c :: out)
    else .error .typeError

/-- Deduplication of the raw citation list (`seen = set()` initially). -/
def dedupCitations (l : List Citation) : Except PyErr (List Citation) := dedupAux [] l

/-- The full extractor `_extract_container_file_citations`: collection
followed by deduplication, either phase propagating its Python
exception. -/
def extract_container_file_citations (resp : Json) : Except PyErr (List Citation) :=
  (collectCitations resp).bind dedupCitations

/-! ## Paths and the per-citation persistence step -/

/-- Containment of a path `p` in a directory `d`, both as absolute resolved
component lists: `p` is `d` possibly extended by further components. -/
def withinDir (d p : List String) : Prop := ∃ rest, p = d ++ rest

/-- Resolution `(job_dir / name).resolve()` for a single component `name`
joined onto an absolute, already-resolved, symlink-free `job_dir`: `..`
steps to the parent, `.` and the empty component vanish, anything else is
appended. -/
def resolveJoin (jobDir : List String) (name : String) : List String :=
  if name = ".." then jobDir.dropLast
  else if name = "." ∨ name = "" then jobDir
  else jobDir ++ [name]

/-- Python `out_path.relative_to(media_root)` on component lists: the
remainder when `base` is an initial run of `p`, and `ValueError` (`none`)
otherwise. -/
def stripBase : List String → List String → Option (List String)
  | [], p => some p
  | _ :: _, [] => none
  | b :: bs, c :: cs => if b = c then stripBase bs cs else none

/-- Rendering of a relative path as the source renders it
(`str(rel).replace("\\", "/")`): pathlib prints the empty relative path as
`"."`. -/
def relString (rel : List String) : String :=
  if rel = [] then "." else String.intercalate "/" rel

/-- Whether the resolved write target `(job_dir / fname).resolve()` is an
existing directory, on which `write_bytes` raises `IsADirectoryError`
instead of writing.  `job_dir.mkdir(parents=True, exist_ok=True)` ensured
that `job_dir` and all its ancestors exist as directories, and the job
directory is fresh (timestamp + random suffix, created by the caller), so
it has no pre-existing children; hence the resolved single-component
target is an existing directory exactly when the component is `..` (the
parent of `job_dir`), or `.` or the empty component (`job_dir` itself). -/
def writeHitsDir (fname : String) : Bool :=
  fname == ".." || fname == "." || fname == ""

/-! ## The orchestrator `run_lda_from_csv`

Source (`catalog/services/lda.py`, lines 22–30 and 106–188).  Its side
effects are recorded as a trace of events; every distinct raise site is a
constructor of `LdaError`.
-/

/-- Observable side effects of one orchestrator call, in program order. -/
inductive Event where
  | mkdir (p : List String) : Event
  | netUpload : Event
  | netGenerate : Event
  | netDownload (cid fid : Json) : Event
  | write (p : List String) (data : List Nat) : Event

/-- Failure outcomes of the orchestrator.  `configurationError` is the
`RuntimeError` of the missing-key checks (the spec's `ConfigurationError`),
`inputNotFound` the `FileNotFoundError` of the existence check (the spec's
`InputNotFoundError`), `py e` a propagated Python exception from the
extractor or the sanitizer, `isADirectoryError` the `OSError` raised by
`out_path.write_bytes` when the resolved target is an existing directory,
`relativeToValueError` the `ValueError` of
`out_path.relative_to(media_root)`.  `pathEscape` names the rejection the
spec calls `PathEscapeError`; no statement of the source produces it. -/
inductive LdaError where
  | configurationError : LdaError
  | inputNotFound : LdaError
  | py (e : PyErr) : LdaError
  | isADirectoryError : LdaError
  | relativeToValueError : LdaError
  | pathEscape : LdaError

/-- The result dataclass `LDAJobResult`. -/
structure LDAJobResult where
  answer_text : String
  saved_relpaths : List String

/-- External state one call runs against: the two credential sources, the
existence of the input CSV, the remote response payload, the byte content
served by the download endpoint, and the resolved `settings.MEDIA_ROOT`. -/
structure LdaEnv where
  envKey : Option String
  settingsKey : Option String
  inputExists : Bool
  resp : Json
  download : Json → Json → List Nat
  mediaRoot : List String

/-- Python `x or y` on optional strings, where `None` and `""` are falsy:
the first step of `os.getenv("OPENAI_API_KEY") or
getattr(settings, "OPENAI_API_KEY", None)`. -/
def pyOrKey : Option String → Option String → Option String
  | some s, fallback => if s = "" then fallback else some s
  | none, fallback => fallback

/-- A single credential source normalised to "yields a non-empty value or
not" (used to state what the layered lookup does). -/
def nonEmptyKey : Option String → Option String
  | some s => if s = "" then none else some s
  | none => none

/-- The credential resolution of `_client` and of `run_lda_from_csv`
(lines 24–25 and 119–121 are the same expression and the same `if not
api_key` check): environment variable first, then the settings attribute,
`none` when the winner is falsy — in the source that `none` becomes
`raise RuntimeError("OPENAI_API_KEY가 설정되지 않았습니다...")`. -/
def resolve_api_key (envKey settingsKey : Option String) : Option String :=
  match pyOrKey envKey settingsKey with
  | some s => if s = "" then none else some s
  | none => none

/-- Computation of `answer_text = (resp_dict.get("output_text") or
"").strip()`: a falsy field strips to the empty string, a truthy string is
stripped, a truthy non-string raises `AttributeError` at `.strip()`. -/
def answerTextOf (resp : Json) : Except PyErr String := do
  let t ← jGetD resp "output_text" .null
  match pyOr t (.str "") with
  | .str s => pure (pyStrip s)
  | _ => .error .attributeError

/-- Fallback summary installed when `answer_text` is empty after the loop
(`"[완료] 실행은 끝났지만 요약 텍스트가 비어 있습니다."`). -/
def koEmptyAnswerFallback : String :=
  "[완료] 실행은 끝났지만 요약 텍스트가 비어 있습니다."

/-- The per-citation loop of `run_lda_from_csv` (lines 163–173): download
the artifact bytes, sanitize the suggested filename, resolve
`(job_dir / fname)`, attempt the unconditional `out_path.write_bytes` —
which raises `IsADirectoryError` and persists nothing when the resolved
target is an existing directory (`writeHitsDir`), i.e. when the sanitized
name is `..` and the target is the parent that
`job_dir.mkdir(parents=True, exist_ok=True)` just ensured exists — and,
after a successful write, compute `out_path.relative_to(media_root)`,
whose `ValueError` aborts the job after the bytes reached disk.  A `write`
event is recorded only for a write that actually persisted bytes.  Returns
the collected relative-path strings and the event trace of the loop. -/
def persistLoop (env : LdaEnv) (jobDir : List String) :
    List Citation → Except LdaError (List String) × List Event
  | [] => (.ok [], [])
  | c :: rest =>
    let data := env.download c.container_id c.file_id
    let dl := Event.netDownload c.container_id c.file_id
    match safeFilenameJ c.filename with
    | .error e => (.error (.py e), [dl])
    | .ok fname =>
      let p := resolveJoin jobDir fname
      if writeHitsDir fname then (.error .isADirectoryError, [dl])
      else
        let wr := Event.write p data
        match stripBase env.mediaRoot p with
        | none => (.error .relativeToValueError, [dl, wr])
        | some rel =>
          match persistLoop env jobDir rest with
          | (.error e, evs) => (.error e, dl :: wr :: evs)
          | (.ok rels, evs) => (.ok (relString rel :: rels), dl :: wr :: evs)

/-- The orchestrator `run_lda_from_csv`, step for step in source order:
credential check of `_client()` (and the identical re-check), then
`job_dir.mkdir(parents=True, exist_ok=True)`, then the
`csv_path.exists()` check, then the upload and the generation request,
`answer_text`, citation extraction, the persistence loop, and finally the
empty-summary fallback.  The value is the returned `LDAJobResult` (or the
raised error) together with the full event trace. -/
def runLdaFromCsv (env : LdaEnv) (jobDir : List String) :
    Except LdaError LDAJobResult × List Event :=
  match resolve_api_key env.envKey env.settingsKey with
  | none => (.error .configurationError, [])
  | some _ =>
    if env.inputExists then
      let ev1 := [Event.mkdir jobDir, Event.netUpload, Event.netGenerate]
      match answerTextOf env.resp with
      | .error e => (.error (.py e), ev1)
      | .ok answer0 =>
        match extract_container_file_citations env.resp with
        | .error e => (.error (.py e), ev1)
        | .ok citations =>
          match persistLoop env jobDir citations with
          | (.error e, evs) => (.error e, ev1 ++ evs)
          | (.ok rels, evs) =>
            let answer := if answer0 = "" then koEmptyAnswerFallback else answer0
            (.ok ⟨answer, rels⟩, ev1 ++ evs)
    else
      (.error .inputNotFound, [Event.mkdir jobDir])

/-! ## Concrete payloads and environments used by the claim statements -/

/-- Annotation citing `(c1, f1)` with the explicit filename
`topics.csv`. -/
def annC6a : Json := .obj [("type", .str "container_file_citation"),
  ("container_id", .str "c1"), ("file_id", .str "f1"),
  ("filename", .str "topics.csv")]

/-- Annotation citing the same `(c1, f1)` pair again, with a different
filename. -/
def annC6b : Json := .obj [("type", .str "container_file_citation"),
  ("container_id", .str "c1"), ("file_id", .str "f1"),
  ("filename", .str "other.csv")]

/-- Annotation citing the distinct pair `(c1, f2)`, with no `filename`
key. -/
def annC6c : Json := .obj [("type", .str "container_file_citation"),
  ("container_id", .str "c1"), ("file_id", .str "f2")]

/-- Response with one non-message item and one message item whose single
content part carries the three annotations above (the shape named by the
spec's extraction test property). -/
def respC6 : Json := .obj [
  ("output", .arr [
    .obj [("type", .str "reasoning")],
    .obj [("type", .str "message"),
          ("content", .arr [.obj [("annotations", .arr [annC6a, annC6b, annC6c])]])]])]

/-- First expected citation of `respC6`: the first occurrence of `(c1, f1)`
wins, so the filename is `topics.csv`. -/
def citC6a : Citation := ⟨.str "c1", .str "f1", .str "topics.csv"⟩

/-- Second expected citation of `respC6`: no explicit name, so the filename
defaults to the file identifier `f2`. -/
def citC6b : Citation := ⟨.str "c1", .str "f2", .str "f2"⟩

/-- Response whose single annotation is typed `container_file_citation` but
carries no `container_id`/`file_id` fields. -/
def respC7 : Json := .obj [("output", .arr [
  .obj [("type", .str "message"),
        ("content", .arr [.obj [("annotations", .arr [
          .obj [("type", .str "container_file_citation")]])]])]])]

/-- Response whose single citation annotation carries a list as
`container_id` — an unhashable deduplication-key component. -/
def respC6bad : Json := .obj [("output", .arr [
  .obj [("type", .str "message"),
        ("content", .arr [.obj [("annotations", .arr [
          .obj [("type", .str "container_file_citation"),
            ("container_id", .arr []), ("file_id", .str "f1")]])]])]])]

/-- Citation whose container identifier is the boolean `True`. -/
def citC6t : Citation := ⟨.bool true, .str "f", .str "a.png"⟩

/-- Citation whose container identifier is the integer `1` — a distinct
`Json` value that Python `==` identifies with `True`. -/
def citC6n : Citation := ⟨.num 1, .str "f", .str "b.png"⟩

/-- Response citing the distinct pairs `(c1, f1)` and `(c1, f2)`, both with
the suggested filename `plot.png`. -/
def respC5 : Json := .obj [
  ("output", .arr [
    .obj [("type", .str "message"),
          ("content", .arr [.obj [("annotations", .arr [
            .obj [("type", .str "container_file_citation"),
              ("container_id", .str "c1"), ("file_id", .str "f1"),
              ("filename", .str "plot.png")],
            .obj [("type", .str "container_file_citation"),
              ("container_id", .str "c1"), ("file_id", .str "f2"),
              ("filename", .str "plot.png")]])]])]]),
  ("output_text", .str "done")]

/-- The two citations extracted from `respC5`. -/
def citC5a : Citation := ⟨.str "c1", .str "f1", .str "plot.png"⟩

/-- Second citation of `respC5`: distinct key, same suggested filename. -/
def citC5b : Citation := ⟨.str "c1", .str "f2", .str "plot.png"⟩

/-- Environment for the collision run: media root `/media`, both credential
sources irrelevant beyond a non-empty environment key, input present. -/
def envC5 : LdaEnv :=
  { envKey := some "k", settingsKey := none, inputExists := true,
    resp := respC5, download := fun _ _ => [], mediaRoot := ["media"] }

/-- Response with a single citation whose suggested filename is `a/..`,
which the sanitizer turns into the bare `..` component. -/
def respC1 : Json := .obj [
  ("output", .arr [
    .obj [("type", .str "message"),
          ("content", .arr [.obj [("annotations", .arr [
            .obj [("type", .str "container_file_citation"),
              ("container_id", .str "c1"), ("file_id", .str "f1"),
              ("filename", .str "a/..")]])]])]]),
  ("output_text", .str "done")]

/-- Environment for the escape run: the job directory used with it is
`/media/jobs/j1`, inside media root `/media`. -/
def envC1 : LdaEnv :=
  { envKey := some "k", settingsKey := none, inputExists := true,
    resp := respC1, download := fun _ _ => [], mediaRoot := ["media"] }

/-- The job directory of the escape run. -/
def jdC1 : List String := ["media", "jobs", "j1"]

/-- Environment with no credential in either source (environment variable
unset, settings attribute set to the empty string). -/
def envC8 : LdaEnv :=
  { envKey := none, settingsKey := some "", inputExists := true,
    resp := .null, download := fun _ _ => [], mediaRoot := ["media"] }

/-- Environment with a valid credential but a missing input CSV. -/
def envC9 : LdaEnv :=
  { envKey := some "k", settingsKey := none, inputExists := false,
    resp := .null, download := fun _ _ => [], mediaRoot := ["media"] }

/-- The job directory of the missing-input run. -/
def jdC9 : List String := ["media", "lda_results", "tool_1", "j1"]

/-- Response with one artifact citation named `out.png` and a non-empty
summary. -/
def respC10 : Json := .obj [
  ("output", .arr [
    .obj [("type", .str "message"),
          ("content", .arr [.obj [("annotations", .arr [
            .obj [("type", .str "container_file_citation"),
              ("container_id", .str "c1"), ("file_id", .str "f1"),
              ("filename", .str "out.png")]])]])]]),
  ("output_text", .str "done")]

/-- The citation extracted from `respC10`. -/
def citC10 : Citation := ⟨.str "c1", .str "f1", .str "out.png"⟩

/-- Environment whose media root `/media` does not contain the job
directory `/other/dir` used with it. -/
def envC10 : LdaEnv :=
  { envKey := some "k", settingsKey := none, inputExists := true,
    resp := respC10, download := fun _ _ => [], mediaRoot := ["media"] }

/-- The job directory of the outside-media-root run. -/
def jdC10 : List String := ["other", "dir"]

/-! ## Lemmas about the sanitizer -/

/-- dropWhile is the identity when the predicate never holds on the list. -/
theorem dropWhile_eq_self_of {p : Char → Bool} :
    ∀ {l : List Char}, (∀ c ∈ l, p c = false) → l.dropWhile p = l
  | [], _ => rfl
  | c :: rest, h => by
      simp only [List.dropWhile_cons, h c (List.mem_cons_self c rest)]
      simp

/-- Every character produced by the substitution pass is in the allowed
class (kept characters are allowed, insertions are the allowed `'_'`). -/
theorem subChars_mem_allowed :
    ∀ (l : List Char) (b : Bool) (c : Char), c ∈ subChars l b → isAllowedChar c = true
  | [], _, _, h => absurd h (List.not_mem_nil _)
  | x :: rest, b, c, h => by
      by_cases hx : isAllowedChar x
      · simp only [subChars, if_pos hx] at h
        rcases List.mem_cons.mp h with rfl | h'
        · exact hx
        · exact subChars_mem_allowed rest false c h'
      · simp only [subChars, if_neg hx] at h
        cases b with
        | true => exact subChars_mem_allowed rest true c (by simpa using h)
        | false =>
            rcases List.mem_cons.mp (by simpa using h) with rfl | h'
            · decide
            · exact subChars_mem_allowed rest true c h'

/-- The substitution pass fixes lists of allowed characters. -/
theorem subChars_id :
    ∀ (l : List Char) (b : Bool), (∀ c ∈ l, isAllowedChar c = true) → subChars l b = l
  | [], _, _ => rfl
  | c :: rest, b, h => by
      simp only [subChars, if_pos (h c (List.mem_cons_self _ _))]
      rw [subChars_id rest false (fun d hd => h d (List.mem_cons_of_mem _ hd))]

/-- The substitution pass maps only the empty list to the empty list (when
not already inside a disallowed run). -/
theorem subChars_eq_nil :
    ∀ (l : List Char), subChars l false = [] → l = []
  | [], _ => rfl
  | c :: rest, h => by
      by_cases hc : isAllowedChar c
      · simp only [subChars, if_pos hc] at h
        exact absurd h (List.cons_ne_nil _ _)
      · simp only [subChars, if_neg hc] at h
        simp at h

/-- The substitution pass yields the single dot only from the single dot. -/
theorem subChars_eq_dot :
    ∀ (l : List Char), subChars l false = ['.'] → l = ['.']
  | [], h => by simp [subChars] at h
  | c :: rest, h => by
      by_cases hc : isAllowedChar c
      · simp only [subChars, if_pos hc, List.cons.injEq] at h
        rw [h.1, subChars_eq_nil rest h.2]
      · simp only [subChars, if_neg hc] at h
        simp only [Bool.false_eq_true, if_false, List.cons.injEq] at h
        exact absurd h.1 (by decide)

/-- The `name` accumulator never returns the dropped `.` component. -/
theorem posixNameAux_ne_dot :
    ∀ (l cur best : List Char), best ≠ ['.'] → posixNameAux l cur best ≠ ['.']
  | [], cur, best, hb => by
      simp only [posixNameAux]
      split
      · exact hb
      · next hg => exact fun h => hg (Or.inr h)
  | c :: rest, cur, best, hb => by
      simp only [posixNameAux]
      split
      · apply posixNameAux_ne_dot
        split
        · exact hb
        · next hg => exact fun h => hg (Or.inr h)
      · exact posixNameAux_ne_dot rest (c :: cur) best hb

/-- On slash-free input the `name` accumulator keeps the whole pending
component (unless it is empty or the `.` component, in which case the best
so far is kept). -/
theorem posixNameAux_no_slash :
    ∀ (l cur best : List Char), (∀ c ∈ l, c ≠ '/') →
      posixNameAux l cur best =
        if l.reverse ++ cur = [] ∨ l.reverse ++ cur = ['.'] then best
        else l.reverse ++ cur
  | [], cur, best, _ => by simp [posixNameAux]
  | c :: rest, cur, best, h => by
      have hc : ¬ (c = '/') := h c (List.mem_cons_self _ _)
      simp only [posixNameAux, if_neg hc]
      rw [posixNameAux_no_slash rest (c :: cur) best
            (fun d hd => h d (List.mem_cons_of_mem _ hd))]
      simp [List.reverse_cons, List.append_assoc]

/-- `Path(s).name` never returns the bare `.` component. -/
theorem posixName_ne_dot (s : String) : posixName s ≠ "." := by
  intro h
  have hd : (posixNameAux s.data [] []).reverse = ['.'] := congrArg String.data h
  have h2 : posixNameAux s.data [] [] = ['.'] := by
    have := congrArg List.reverse hd
    simpa using this
  exact posixNameAux_ne_dot s.data [] [] (by simp) h2

/-- Every character of a sanitized name is in the class `[A-Za-z0-9._-]`. -/
theorem safe_filename_chars (x : String) :
    ∀ c ∈ (safe_filename x).data, isAllowedChar c = true := by
  intro c hc
  simp only [safe_filename] at hc
  split at hc
  · revert hc; revert c; decide
  · exact subChars_mem_allowed _ _ c hc

/-- A sanitized name is never empty (the fallback literal catches the empty
result). -/
theorem safe_filename_ne_empty (x : String) : safe_filename x ≠ "" := by
  simp only [safe_filename]
  split
  · decide
  · next h => exact h

/-- A sanitized name is never the bare `.` component. -/
theorem safe_filename_ne_dot (x : String) : safe_filename x ≠ "." := by
  simp only [safe_filename]
  split
  · decide
  · intro h
    have h1 : subChars (posixName (pyStrip x)).data false = ['.'] :=
      congrArg String.data h
    have h2 : (posixName (pyStrip x)).data = ['.'] := subChars_eq_dot _ h1
    exact posixName_ne_dot (pyStrip x) (by
      have : posixName (pyStrip x) = String.mk ['.'] := congrArg String.mk h2 ▸ rfl
      simpa using this)

/-- Allowed characters are not whitespace stripped by `str.strip()`. -/
theorem allowed_not_space {c : Char} (h : isAllowedChar c = true) :
    isPySpace c = false := by
  by_contra hs
  have hs' : isPySpace c = true := by
    cases hq : isPySpace c
    · exact absurd hq hs
    · rfl
  simp only [isPySpace, Bool.or_eq_true, beq_iff_eq] at hs'
  rcases hs' with ((((((((h1 | h1) | h1) | h1) | h1) | h1) | h1) | h1) | h1) | h1 <;>
    (subst h1; exact absurd h (by decide))

/-- Allowed characters are not the path separator. -/
theorem allowed_ne_slash {c : Char} (h : isAllowedChar c = true) : c ≠ '/' := by
  intro hc
  subst hc
  exact absurd h (by decide)

/-- `str.strip()` fixes strings of allowed characters. -/
theorem pyStrip_of_allowed {s : String}
    (h : ∀ c ∈ s.data, isAllowedChar c = true) : pyStrip s = s := by
  unfold pyStrip
  rw [dropWhile_eq_self_of (fun c hc => allowed_not_space (h c hc))]
  rw [dropWhile_eq_self_of (fun c hc => allowed_not_space (h c (List.mem_reverse.mp hc)))]
  rw [List.reverse_reverse]

/-- `Path(s).name` fixes slash-free strings other than the dropped `""` and
`"."`. -/
theorem posixName_of_allowed {s : String}
    (hch : ∀ c ∈ s.data, isAllowedChar c = true)
    (hne : s ≠ "") (hnd : s ≠ ".") : posixName s = s := by
  have hno : ∀ c ∈ s.data, c ≠ '/' := fun c hc => allowed_ne_slash (hch c hc)
  have hcond : ¬ (s.data.reverse ++ [] = [] ∨ s.data.reverse ++ [] = ['.']) := by
    rw [List.append_nil]
    rintro (h | h)
    · exact hne (String.ext (by simpa using congrArg List.reverse h))
    · exact hnd (String.ext (by simpa using congrArg List.reverse h))
  unfold posixName
  rw [posixNameAux_no_slash _ _ _ hno, if_neg hcond, List.append_nil,
    List.reverse_reverse]

/-- The substitution pass fixes strings of allowed characters. -/
theorem pySubDisallowed_of_allowed {s : String}
    (hch : ∀ c ∈ s.data, isAllowedChar c = true) : pySubDisallowed s = s := by
  unfold pySubDisallowed
  rw [subChars_id s.data false hch]

/-! ## Claims about the sanitizer -/

/-- C2 (counterexample): the claim asserts that for every input the
sanitized result contains no `..` segment; but `_safe_filename "a/.."`
evaluates to the bare `..` component (`Path("a/..").name` is `".."`, all of
whose characters are in the allowed class), so the universally quantified
claim is false at the concrete input `"a/.."`. -/
theorem C2_counterexample :
    ¬ (∀ x : String, safe_filename x ≠ "..") := fun h => h "a/.." (by decide)

/-- C2 (amended): for every input string the sanitized result contains no
path separator — making escape into deeper directories structurally
impossible — and is never empty; however, the result can be the `..`
component itself, so parent-directory escape is not excluded by the
sanitizer alone. -/
theorem C2_no_separator (x : String) :
    ¬ '/' ∈ (safe_filename x).data ∧ safe_filename x ≠ "" := by
  refine ⟨fun hc => ?_, safe_filename_ne_empty x⟩
  exact absurd (safe_filename_chars x '/' hc) (by decide)

/-- C3 (confirmed): the sanitizer is idempotent — sanitizing an
already-sanitized name returns it unchanged.  The output consists of
characters in `[A-Za-z0-9._-]` only and is neither empty nor `"."`, so the
strip, the `Path(·).name` step and the substitution all fix it, and the
fallback branch is not taken. -/
theorem C3_sanitizer_idempotent (x : String) :
    safe_filename (safe_filename x) = safe_filename x := by
  have hch := safe_filename_chars x
  have hne := safe_filename_ne_empty x
  have hnd := safe_filename_ne_dot x
  show (if pySubDisallowed (posixName (pyStrip (safe_filename x))) = "" then "output"
        else pySubDisallowed (posixName (pyStrip (safe_filename x)))) = safe_filename x
  rw [pyStrip_of_allowed hch, posixName_of_allowed hch hne hnd,
    pySubDisallowed_of_allowed hch, if_neg hne]

/-- C4 (counterexample): the claim asserts that all-stripped inputs such as
`"..."` yield the fixed fallback literal; but `Path("...").name` is `"..."`
(only the single-dot component is dropped by pathlib), every dot is in the
allowed class, so `_safe_filename "..."` is `"..."`, not the fallback. -/
theorem C4_counterexample :
    safe_filename "..." = "..." ∧ ("..." : String) ≠ "output" :=
  ⟨by decide, by decide⟩

/-- C4 (amended): the sanitizer returns the fixed fallback literal
`"output"` exactly on the inputs whose strip/`Path(·).name`/substitution
pipeline produces the empty string — in particular `_safe_filename ""` is
the fallback; `"..."` is not such an input. -/
theorem C4_fallback :
    safe_filename "" = "output" ∧
    (∀ x : String,
      pySubDisallowed (posixName (pyStrip x)) = "" → safe_filename x = "output") := by
  refine ⟨by decide, fun x h => ?_⟩
  show (if pySubDisallowed (posixName (pyStrip x)) = "" then "output"
        else pySubDisallowed (posixName (pyStrip x))) = "output"
  rw [if_pos h]

/-- C4 (witness): the dropped-dot input `"."` strips to the empty result
and therefore yields the fallback literal, by the amended theorem. -/
theorem C4_witness : safe_filename "." = "output" :=
  C4_fallback.2 "." (by decide)

/-! ## Claims about path containment and collision safety -/

/-- C1 (counterexample): the claim asserts that the materializer asserts
containment before writing and rejects with `PathEscapeError` when the
resolved path falls outside `job_dir`; but on the concrete response citing
the filename `a/..` the resolved write path `job_dir/.. = /media/jobs`
lies outside the job directory `/media/jobs/j1` and the run fails with
`IsADirectoryError`, raised by the attempted `write_bytes` at that
existing parent directory — not with any `PathEscapeError`, and with no
containment assertion ever made. -/
theorem C1_counterexample :
    ¬ withinDir jdC1 (resolveJoin jdC1 (safe_filename "a/..")) ∧
    (runLdaFromCsv envC1 jdC1).1 = .error .isADirectoryError ∧
    (runLdaFromCsv envC1 jdC1).1 ≠ .error .pathEscape := by
  refine ⟨?_, rfl, ?_⟩
  · have hred : resolveJoin jdC1 (safe_filename "a/..") = ["media", "jobs"] := rfl
    rw [hred]
    rintro ⟨rest, h⟩
    have hl := congrArg List.length h
    simp [jdC1] at hl
  · have h : (runLdaFromCsv envC1 jdC1).1 = .error .isADirectoryError := rfl
    rw [h]
    simp

/-- C1 (amended): the source performs no containment assertion and never
raises a `PathEscapeError`.  For every suggested filename whose sanitized
form is not the `..` component, the resolved write path
`(job_dir / _safe_filename(name)).resolve()` lies within `job_dir` (the
sanitized form has no separator and is neither `"."` nor empty, so
resolution appends exactly one component) and the write proceeds; when the
sanitized form is `..`, the resolved target is `job_dir`'s parent — an
existing directory — so the attempted `write_bytes` raises
`IsADirectoryError` after the download and persists no bytes.  Escape is
thus prevented by the sanitizer plus an incidental OS error, not by the
claimed check. -/
theorem C1_no_escape_without_dotdot (jd : List String) (name : String) :
    (safe_filename name ≠ ".." →
      withinDir jd (resolveJoin jd (safe_filename name))) ∧
    (∀ (env : LdaEnv) (c : Citation) (rest : List Citation),
      safeFilenameJ c.filename = .ok ".." →
      persistLoop env jd (c :: rest) =
        (.error .isADirectoryError,
         [Event.netDownload c.container_id c.file_id])) := by
  constructor
  · intro h
    have h2 : ¬ (safe_filename name = "." ∨ safe_filename name = "") := by
      rintro (hd | he)
      · exact safe_filename_ne_dot name hd
      · exact safe_filename_ne_empty name he
    unfold resolveJoin
    rw [if_neg h, if_neg h2]
    exact ⟨[safe_filename name], rfl⟩
  · intro env c rest h
    simp only [persistLoop, h]
    rfl

/-- C1 (witness): the benign artifact name `topics.csv` resolves to a path
inside the job directory. -/
theorem C1_witness :
    withinDir ["media", "j"] (resolveJoin ["media", "j"] (safe_filename "topics.csv")) :=
  (C1_no_escape_without_dotdot ["media", "j"] "topics.csv").1 (by decide)

/-- C5 (counterexample): the claim asserts collision-safe naming — distinct
`(container_id, file_id)` pairs persisted to distinct paths; but on the
concrete response citing `(c1, f1)` and `(c1, f2)`, both suggesting the
filename `plot.png`, the run writes both artifacts to the same path
`/media/j/plot.png` (the second write silently replacing the first). -/
theorem C5_counterexample :
    keyBeq (citKey citC5a) (citKey citC5b) = false ∧
    extract_container_file_citations respC5 = .ok [citC5a, citC5b] ∧
    (runLdaFromCsv envC5 ["media", "j"]).2 =
      [.mkdir ["media", "j"], .netUpload, .netGenerate,
       .netDownload (.str "c1") (.str "f1"),
       .write ["media", "j", "plot.png"] [],
       .netDownload (.str "c1") (.str "f2"),
       .write ["media", "j", "plot.png"] []] :=
  ⟨rfl, rfl, rfl⟩

/-- C5 (amended): artifact write paths are determined by the sanitized
suggested filename alone — two citations are persisted to distinct resolved
paths inside the same job directory if and only if their sanitized
filenames differ; the `(container_id, file_id)` identity plays no part in
the naming. -/
theorem C5_distinct_paths_iff (jd : List String) (n1 n2 : String) :
    resolveJoin jd (safe_filename n1) = resolveJoin jd (safe_filename n2) ↔
      safe_filename n1 = safe_filename n2 := by
  have hg1 : ¬ (safe_filename n1 = "." ∨ safe_filename n1 = "") := by
    rintro (hd | he)
    · exact safe_filename_ne_dot n1 hd
    · exact safe_filename_ne_empty n1 he
  have hg2 : ¬ (safe_filename n2 = "." ∨ safe_filename n2 = "") := by
    rintro (hd | he)
    · exact safe_filename_ne_dot n2 hd
    · exact safe_filename_ne_empty n2 he
  constructor
  · intro h
    by_cases h1 : safe_filename n1 = ".."
    · by_cases h2 : safe_filename n2 = ".."
      · rw [h1, h2]
      · exfalso
        simp only [resolveJoin, if_pos h1, if_neg h2, if_neg hg2] at h
        have hl := congrArg List.length h
        simp [List.length_dropLast] at hl
    · by_cases h2 : safe_filename n2 = ".."
      · exfalso
        simp only [resolveJoin, if_neg h1, if_neg hg1, if_pos h2] at h
        have hl := congrArg List.length h
        simp [List.length_dropLast] at hl
        omega
      · simp only [resolveJoin, if_neg h1, if_neg hg1, if_neg h2, if_neg hg2] at h
        simpa using h
  · intro h
    rw [h]

/-! ## Lemmas about Json equality and deduplication -/

/-- Soundness and completeness of the structural Boolean equalities, proved
simultaneously for the three mutually defined comparators by induction on a
size bound. -/
theorem jsonBeq_sound :
    ∀ (n : Nat),
      (∀ a b : Json, sizeOf a ≤ n → (jsonBeq a b = true ↔ a = b)) ∧
      (∀ xs ys : List Json, sizeOf xs ≤ n → (jsonListBeq xs ys = true ↔ xs = ys)) ∧
      (∀ xs ys : List (String × Json), sizeOf xs ≤ n →
        (jsonObjBeq xs ys = true ↔ xs = ys)) := by
  intro n
  induction n with
  | zero =>
      refine ⟨fun a b h => absurd h ?_, fun xs ys h => absurd h ?_,
        fun xs ys h => absurd h ?_⟩
      · cases a <;> simp
      · cases xs <;> simp
      · cases xs <;> simp
  | succ n ih =>
      obtain ⟨ihJ, ihL, ihO⟩ := ih
      refine ⟨fun a b h => ?_, fun xs ys h => ?_, fun xs ys h => ?_⟩
      · cases a with
        | null => cases b <;> simp [jsonBeq]
        | bool x => cases b <;> simp [jsonBeq]
        | num x => cases b <;> simp [jsonBeq]
        | str x => cases b <;> simp [jsonBeq]
        | arr xs =>
            cases b with
            | arr ys =>
                have hx : sizeOf xs ≤ n := by simp at h; omega
                simp [jsonBeq, ihL xs ys hx]
            | null => simp [jsonBeq]
            | bool _ => simp [jsonBeq]
            | num _ => simp [jsonBeq]
            | str _ => simp [jsonBeq]
            | obj _ => simp [jsonBeq]
        | obj xs =>
            cases b with
            | obj ys =>
                have hx : sizeOf xs ≤ n := by simp at h; omega
                simp [jsonBeq, ihO xs ys hx]
            | null => simp [jsonBeq]
            | bool _ => simp [jsonBeq]
            | num _ => simp [jsonBeq]
            | str _ => simp [jsonBeq]
            | arr _ => simp [jsonBeq]
      · cases xs with
        | nil => cases ys <;> simp [jsonListBeq]
        | cons x xs' =>
            cases ys with
            | nil => simp [jsonListBeq]
            | cons y ys' =>
                have h1 : sizeOf x ≤ n := by simp at h; omega
                have h2 : sizeOf xs' ≤ n := by simp at h; omega
                simp [jsonListBeq, ihJ x y h1, ihL xs' ys' h2]
      · cases xs with
        | nil => cases ys <;> simp [jsonObjBeq]
        | cons p xs' =>
            obtain ⟨k, v⟩ := p
            cases ys with
            | nil => simp [jsonObjBeq]
            | cons q ys' =>
                obtain ⟨l, w⟩ := q
                have h1 : sizeOf v ≤ n := by simp at h; omega
                have h2 : sizeOf xs' ≤ n := by simp at h; omega
                simp [jsonObjBeq, ihJ v w h1, ihO xs' ys' h2, and_assoc]

/-- The Boolean `Json` equality decides propositional equality. -/
theorem jsonBeq_eq (a b : Json) : jsonBeq a b = true ↔ a = b :=
  (jsonBeq_sound (sizeOf a)).1 a b (Nat.le_refl _)

/-- `keyPyEq` is equality of the canonical key forms. -/
theorem keyPyEq_eq (a b : Json × Json) :
    keyPyEq a b = true ↔ canonKey a = canonKey b := by
  obtain ⟨a1, a2⟩ := a
  obtain ⟨b1, b2⟩ := b
  simp [keyPyEq, pyEqHashable, canonKey, jsonBeq_eq]

/-- Python key equality is reflexive. -/
theorem keyPyEq_refl (k : Json × Json) : keyPyEq k k = true :=
  (keyPyEq_eq k k).mpr rfl

/-- Python key equality fails exactly between distinct canonical forms. -/
theorem keyPyEq_false (a b : Json × Json) (h : canonKey a ≠ canonKey b) :
    keyPyEq a b = false := by
  cases hq : keyPyEq a b
  · rfl
  · exact absurd ((keyPyEq_eq a b).mp hq) h

/-- The `seen`-set membership test of the deduplication loop is membership
of the canonical key form among the canonical forms of the stored keys. -/
theorem any_keyPyEq (seen : List (Json × Json)) (k : Json × Json) :
    seen.any (fun s => keyPyEq s k) = true ↔ canonKey k ∈ seen.map canonKey := by
  simp only [List.any_eq_true, keyPyEq_eq, List.mem_map]

/-- Successful deduplication yields a sublist of its input (order
preserved, every element an element of the input). -/
theorem dedupAux_sublist :
    ∀ (seen : List (Json × Json)) (l out : List Citation),
      dedupAux seen l = .ok out → out.Sublist l
  | _, [], out, h => by
      simp only [dedupAux] at h
      injection h with h
      subst h
      exact List.Sublist.refl []
  | seen, c :: rest, out, h => by
      by_cases hh : (jsonHashable c.container_id && jsonHashable c.file_id) = true
      · simp only [dedupAux, if_pos hh] at h
        by_cases hm : seen.any (fun s => keyPyEq s (citKey c)) = true
        · rw [if_pos hm] at h
          exact (dedupAux_sublist seen rest out h).cons c
        · rw [if_neg hm] at h
          cases hq : dedupAux (citKey c :: seen) rest with
          | error e => rw [hq] at h; exact Except.noConfusion h
          | ok out' =>
              rw [hq] at h
              injection h with h
              subst h
              exact (dedupAux_sublist _ rest out' hq).cons₂ c
      · simp only [dedupAux, if_neg hh] at h
        exact Except.noConfusion h

/-- No element surviving deduplication has its canonical key among the keys
the loop started from. -/
theorem dedupAux_not_seen :
    ∀ (seen : List (Json × Json)) (l out : List Citation) (c : Citation),
      dedupAux seen l = .ok out → c ∈ out →
      canonKey (citKey c) ∉ seen.map canonKey
  | seen, [], out, c, h, hc => by
      simp only [dedupAux] at h
      injection h with h
      subst h
      exact absurd hc (List.not_mem_nil _)
  | seen, e :: rest, out, c, h, hc => by
      by_cases hh : (jsonHashable e.container_id && jsonHashable e.file_id) = true
      · simp only [dedupAux, if_pos hh] at h
        by_cases hm : seen.any (fun s => keyPyEq s (citKey e)) = true
        · rw [if_pos hm] at h
          exact dedupAux_not_seen seen rest out c h hc
        · rw [if_neg hm] at h
          cases hq : dedupAux (citKey e :: seen) rest with
          | error e' => rw [hq] at h; exact Except.noConfusion h
          | ok out' =>
              rw [hq] at h
              injection h with h
              subst h
              rcases List.mem_cons.mp hc with rfl | hc'
              · intro hmem
                exact hm ((any_keyPyEq seen (citKey c)).mpr hmem)
              · have hrec := dedupAux_not_seen (citKey e :: seen) rest out' c hq hc'
                exact fun hmem => hrec (List.mem_cons_of_mem _ hmem)
      · simp only [dedupAux, if_neg hh] at h
        exact Except.noConfusion h

/-- Deduplicated citations have pairwise Python-distinct keys. -/
theorem dedupAux_pairwise :
    ∀ (seen : List (Json × Json)) (l out : List Citation),
      dedupAux seen l = .ok out →
      out.Pairwise (fun a b => keyPyEq (citKey a) (citKey b) = false)
  | _, [], out, h => by
      simp only [dedupAux] at h
      injection h with h
      subst h
      exact List.Pairwise.nil
  | seen, e :: rest, out, h => by
      by_cases hh : (jsonHashable e.container_id && jsonHashable e.file_id) = true
      · simp only [dedupAux, if_pos hh] at h
        by_cases hm : seen.any (fun s => keyPyEq s (citKey e)) = true
        · rw [if_pos hm] at h
          exact dedupAux_pairwise seen rest out h
        · rw [if_neg hm] at h
          cases hq : dedupAux (citKey e :: seen) rest with
          | error e' => rw [hq] at h; exact Except.noConfusion h
          | ok out' =>
              rw [hq] at h
              injection h with h
              subst h
              refine List.Pairwise.cons (fun d hd => ?_) (dedupAux_pairwise _ rest out' hq)
              have hns := dedupAux_not_seen (citKey e :: seen) rest out' d hq hd
              exact keyPyEq_false _ _ (fun he =>
                hns (he ▸ List.mem_cons_self _ _))
      · simp only [dedupAux, if_neg hh] at h
        exact Except.noConfusion h

/-- Every canonical key of the input list is represented after successful
deduplication, provided it was not already in `seen`. -/
theorem dedupAux_covers :
    ∀ (seen : List (Json × Json)) (l out : List Citation) (c : Citation),
      dedupAux seen l = .ok out → c ∈ l →
      canonKey (citKey c) ∉ seen.map canonKey →
      ∃ d ∈ out, keyPyEq (citKey d) (citKey c) = true
  | _, [], out, c, _, hc, _ => absurd hc (List.not_mem_nil _)
  | seen, e :: rest, out, c, h, hc, hns => by
      by_cases hh : (jsonHashable e.container_id && jsonHashable e.file_id) = true
      · simp only [dedupAux, if_pos hh] at h
        by_cases hm : seen.any (fun s => keyPyEq s (citKey e)) = true
        · rw [if_pos hm] at h
          rcases List.mem_cons.mp hc with rfl | hc'
          · exact absurd ((any_keyPyEq seen (citKey c)).mp hm) hns
          · exact dedupAux_covers seen rest out c h hc' hns
        · rw [if_neg hm] at h
          cases hq : dedupAux (citKey e :: seen) rest with
          | error e' => rw [hq] at h; exact Except.noConfusion h
          | ok out' =>
              rw [hq] at h
              injection h with h
              subst h
              rcases List.mem_cons.mp hc with rfl | hc'
              · exact ⟨_, List.mem_cons_self _ _, keyPyEq_refl _⟩
              · by_cases hke : canonKey (citKey c) = canonKey (citKey e)
                · exact ⟨e, List.mem_cons_self _ _, (keyPyEq_eq _ _).mpr hke.symm⟩
                · obtain ⟨d, hd, hkd⟩ :=
                    dedupAux_covers (citKey e :: seen) rest out' c hq hc'
                      (by
                        intro hmem
                        rcases List.mem_cons.mp hmem with hc2 | hc2
                        · exact hke hc2
                        · exact hns hc2)
                  exact ⟨d, List.mem_cons_of_mem _ hd, hkd⟩
      · simp only [dedupAux, if_neg hh] at h
        exact Except.noConfusion h

/-- Every citation surviving deduplication is the first element of the
input carrying its Python key: the input splits around it with no
Python-equal-key element before it. -/
theorem dedupAux_first :
    ∀ (seen : List (Json × Json)) (l out : List Citation) (c : Citation),
      dedupAux seen l = .ok out → c ∈ out →
      ∃ l₁ l₂, l = l₁ ++ c :: l₂ ∧ ∀ d ∈ l₁, keyPyEq (citKey d) (citKey c) = false
  | seen, [], out, c, h, hc => by
      simp only [dedupAux] at h
      injection h with h
      subst h
      exact absurd hc (List.not_mem_nil _)
  | seen, e :: rest, out, c, h, hc => by
      by_cases hh : (jsonHashable e.container_id && jsonHashable e.file_id) = true
      · simp only [dedupAux, if_pos hh] at h
        by_cases hm : seen.any (fun s => keyPyEq s (citKey e)) = true
        · rw [if_pos hm] at h
          obtain ⟨l₁, l₂, hsplit, hfirst⟩ := dedupAux_first seen rest out c h hc
          have hcs := dedupAux_not_seen seen rest out c h hc
          refine ⟨e :: l₁, l₂, by rw [hsplit]; rfl, fun d hd => ?_⟩
          rcases List.mem_cons.mp hd with rfl | hd'
          · refine keyPyEq_false _ _ (fun he => hcs ?_)
            exact he ▸ (any_keyPyEq seen (citKey d)).mp hm
          · exact hfirst d hd'
        · rw [if_neg hm] at h
          cases hq : dedupAux (citKey e :: seen) rest with
          | error e' => rw [hq] at h; exact Except.noConfusion h
          | ok out' =>
              rw [hq] at h
              injection h with h
              subst h
              rcases List.mem_cons.mp hc with rfl | hc'
              · exact ⟨[], rest, rfl, by simp⟩
              · obtain ⟨l₁, l₂, hsplit, hfirst⟩ :=
                  dedupAux_first (citKey e :: seen) rest out' c hq hc'
                have hcs := dedupAux_not_seen (citKey e :: seen) rest out' c hq hc'
                refine ⟨e :: l₁, l₂, by rw [hsplit]; rfl, fun d hd => ?_⟩
                rcases List.mem_cons.mp hd with rfl | hd'
                · exact keyPyEq_false _ _ (fun he =>
                    hcs (he.symm ▸ List.mem_cons_self _ _))
                · exact hfirst d hd'
      · simp only [dedupAux, if_neg hh] at h
        exact Except.noConfusion h

/-- A single citation with an unhashable key component makes the whole
deduplication pass raise `TypeError`, wherever it sits in the list. -/
theorem dedupAux_unhashable :
    ∀ (seen : List (Json × Json)) (l : List Citation) (c : Citation),
      c ∈ l → (jsonHashable c.container_id && jsonHashable c.file_id) = false →
      dedupAux seen l = .error .typeError
  | _, [], c, h, _ => absurd h (List.not_mem_nil _)
  | seen, e :: rest, c, h, hun => by
      by_cases hh : (jsonHashable e.container_id && jsonHashable e.file_id) = true
      · rcases List.mem_cons.mp h with rfl | h'
        · simp [hun] at hh
        · simp only [dedupAux, if_pos hh]
          by_cases hm : seen.any (fun s => keyPyEq s (citKey e)) = true
          · rw [if_pos hm]
            exact dedupAux_unhashable seen rest c h' hun
          · rw [if_neg hm]
            rw [dedupAux_unhashable (citKey e :: seen) rest c h' hun]
      · simp only [dedupAux, if_neg hh]

/-! ## Claims about the extractor -/

/-- C6 (counterexample): the claim asserts that for every response payload
the extractor returns the deduplicated citation sequence; but on the
concrete payload whose single citation carries a list as `container_id`,
the `seen`-set membership test `k in seen` hashes an unhashable tuple and
extraction raises `TypeError` instead of returning. -/
theorem C6_counterexample :
    extract_container_file_citations respC6bad = .error .typeError := rfl

/-- C6 (amended): whenever every collected citation's `container_id` and
`file_id` are hashable values, the extractor returns the collected
citations deduplicated by Python equality of the `(container_id, file_id)`
pair — which identifies `True` with `1` and `False` with `0`, as the
concrete `(True, f)`/`(1, f)` merge shows — as a first-seen-order sublist
with pairwise Python-distinct keys covering every collected key, each
survivor being the first occurrence of its key (so its filename is the
first one seen); a citation with an unhashable key component instead makes
deduplication raise `TypeError`.  On the concrete example payload — one
non-message item plus one message item whose annotations cite `(c1, f1)`
twice and `(c1, f2)` once without a filename — extraction returns exactly
the two citations, the first keeping the first filename `topics.csv`, the
second defaulting its filename to the file identifier `f2`. -/
theorem C6_extract_citations :
    (extract_container_file_citations respC6 = .ok [citC6a, citC6b]) ∧
    (dedupCitations [citC6t, citC6n] = .ok [citC6t]) ∧
    (∀ (resp : Json) (raw : List Citation), collectCitations resp = .ok raw →
        extract_container_file_citations resp = dedupCitations raw) ∧
    (∀ (l out : List Citation), dedupCitations l = .ok out → out.Sublist l) ∧
    (∀ (l out : List Citation), dedupCitations l = .ok out →
        out.Pairwise (fun a b => keyPyEq (citKey a) (citKey b) = false)) ∧
    (∀ (l out : List Citation) (c : Citation), dedupCitations l = .ok out →
        c ∈ l → ∃ d ∈ out, keyPyEq (citKey d) (citKey c) = true) ∧
    (∀ (l out : List Citation) (c : Citation), dedupCitations l = .ok out →
        c ∈ out →
        ∃ l₁ l₂, l = l₁ ++ c :: l₂ ∧
          ∀ d ∈ l₁, keyPyEq (citKey d) (citKey c) = false) ∧
    (∀ (l : List Citation) (c : Citation), c ∈ l →
        (jsonHashable c.container_id && jsonHashable c.file_id) = false →
        dedupCitations l = .error .typeError) := by
  refine ⟨rfl, rfl, ?_, ?_, ?_, ?_, ?_, ?_⟩
  · intro resp raw h
    unfold extract_container_file_citations
    rw [h]
    rfl
  · exact fun l out h => dedupAux_sublist [] l out h
  · exact fun l out h => dedupAux_pairwise [] l out h
  · exact fun l out c h hc => dedupAux_covers [] l out c h hc (List.not_mem_nil _)
  · exact fun l out c h hc => dedupAux_first [] l out c h hc
  · exact fun l c hc hun => dedupAux_unhashable [] l c hc hun

/-- C6 (witness): deduplicating the singleton list of the citation
`(c1, f1, topics.csv)` succeeds with that citation, which covers its own
key, by the coverage part of the amended theorem applied at that concrete
list. -/
theorem C6_witness :
    ∃ d ∈ [citC6a], keyPyEq (citKey d) (citKey citC6a) = true :=
  C6_extract_citations.2.2.2.2.2.1 [citC6a] [citC6a] citC6a rfl
    (List.mem_cons_self _ _)

/-- C7 (counterexample): the claim asserts that partially-formed shapes
never crash extraction; but on the concrete payload whose annotation is
typed `container_file_citation` while missing `container_id`, the
subscription `ann["container_id"]` raises `KeyError` and extraction fails
rather than skipping the annotation. -/
theorem C7_counterexample :
    extract_container_file_citations respC7 = .error .keyError := rfl

/-- C7 (amended): output items (that are dicts) whose `type` is not the
string `message`, and annotations (that are dicts) whose `type` is not the
string `container_file_citation`, are ignored without error; extraction is
not, however, total — a citation-typed annotation lacking `container_id`
or `file_id` raises `KeyError`, and non-dict items, parts or annotations
raise `AttributeError`. -/
theorem C7_ignores_other_types :
    (∀ kvs : List (String × Json),
        jEqStr (objGetD kvs "type" .null) "message" = false →
        collectFromItem (.obj kvs) = .ok []) ∧
    (∀ kvs : List (String × Json),
        jEqStr (objGetD kvs "type" .null) "container_file_citation" = false →
        collectFromAnn (.obj kvs) = .ok none) := by
  constructor
  · intro kvs h
    unfold collectFromItem
    simp [jGetD, Bind.bind, Except.bind, h]
    rfl
  · intro kvs h
    unfold collectFromAnn
    simp [jGetD, Bind.bind, Except.bind, h]
    rfl

/-- C7 (witness): a reasoning-typed item and a url-citation-typed
annotation are both skipped without error, by the amended theorem applied
at those concrete dicts. -/
theorem C7_witness :
    collectFromItem (.obj [("type", .str "reasoning")]) = .ok [] ∧
    collectFromAnn (.obj [("type", .str "url_citation")]) = .ok none :=
  ⟨C7_ignores_other_types.1 [("type", .str "reasoning")] rfl,
   C7_ignores_other_types.2 [("type", .str "url_citation")] rfl⟩

/-- Every name produced by the sanitizer applied to a `Json` filename
value is in the range of `safe_filename` (falsy values sanitize the empty
string, truthy strings are sanitized, anything else errors). -/
theorem safeFilenameJ_range {j : Json} {fn : String}
    (h : safeFilenameJ j = .ok fn) : ∃ s, fn = safe_filename s := by
  unfold safeFilenameJ at h
  by_cases ht : truthy j = true
  · rw [if_pos ht] at h
    cases j with
    | str s =>
        injection h with h
        exact ⟨s, h.symm⟩
    | null => exact Except.noConfusion h
    | bool b => exact Except.noConfusion h
    | num n => exact Except.noConfusion h
    | arr l => exact Except.noConfusion h
    | obj l => exact Except.noConfusion h
  · rw [if_neg ht] at h
    injection h with h
    exact ⟨"", h.symm⟩

/-! ## Claims about the orchestrator -/

/-- C8 (confirmed): when neither credential source yields a non-empty
value, the orchestrator fails with the configuration error before any side
effect at all — the event trace is empty, so in particular no network call
was attempted; the layered lookup fails exactly when both sources are
empty, and a non-empty environment variable wins regardless of the
settings value (environment first, settings second). -/
theorem C8_missing_credentials :
    (∀ (env : LdaEnv) (jd : List String),
        resolve_api_key env.envKey env.settingsKey = none →
        runLdaFromCsv env jd = (.error .configurationError, [])) ∧
    (∀ e s : Option String,
        resolve_api_key e s = none ↔ (nonEmptyKey e = none ∧ nonEmptyKey s = none)) ∧
    (∀ (k : String) (s : Option String), k ≠ "" →
        resolve_api_key (some k) s = some k) := by
  refine ⟨fun env jd h => ?_, fun e s => ?_, fun k s h => ?_⟩
  · unfold runLdaFromCsv
    rw [h]
  · cases e <;> cases s <;>
      simp [resolve_api_key, pyOrKey, nonEmptyKey] <;> split_ifs <;> simp_all
  · simp [resolve_api_key, pyOrKey, h]

/-- C8 (witness): with the environment variable unset and the settings
attribute the empty string, the call fails with the configuration error
and an empty trace, by the claim theorem applied at that environment. -/
theorem C8_witness :
    runLdaFromCsv envC8 ["media", "j"] = (.error .configurationError, []) :=
  C8_missing_credentials.1 envC8 ["media", "j"] rfl

/-- C9 (counterexample): the claim asserts that a missing input file fails
without having created the job directory; but on the concrete environment
with valid credentials and a missing input CSV the call does fail with the
input-not-found error while its trace contains the directory creation —
`job_dir.mkdir(parents=True, exist_ok=True)` runs before the
`csv_path.exists()` check. -/
theorem C9_counterexample :
    (runLdaFromCsv envC9 jdC9).1 = .error .inputNotFound ∧
    Event.mkdir jdC9 ∈ (runLdaFromCsv envC9 jdC9).2 := by
  refine ⟨rfl, ?_⟩
  have h : (runLdaFromCsv envC9 jdC9).2 = [Event.mkdir jdC9] := rfl
  rw [h]
  exact List.mem_singleton_self _

/-- C9 (amended): when credentials resolve and the input file is missing,
the orchestrator fails with the input-not-found error, and its trace is
exactly the creation of the job directory — the directory is created
eagerly before the existence check, not lazily on first write, so the
failed call leaves the job directory behind. -/
theorem C9_input_check_after_mkdir (env : LdaEnv) (jd : List String) (k : String)
    (hk : resolve_api_key env.envKey env.settingsKey = some k)
    (hin : env.inputExists = false) :
    runLdaFromCsv env jd = (.error .inputNotFound, [Event.mkdir jd]) := by
  unfold runLdaFromCsv
  rw [hk, hin]
  rfl

/-- C9 (witness): the amended theorem applied at the concrete environment
with a valid key and a missing input CSV. -/
theorem C9_witness :
    runLdaFromCsv envC9 jdC9 = (.error .inputNotFound, [Event.mkdir jdC9]) :=
  C9_input_check_after_mkdir envC9 jdC9 "k" rfl rfl

/-- C10 (confirmed): when at least one citation is extracted and the
resolved write path of the first one is not under the resolved media root,
the call fails with the `ValueError` of
`out_path.relative_to(media_root)` — and the failing trace already
contains the write of that artifact's bytes at the resolved path, i.e. the
error is raised only after the bytes reached the disk, and no `JobResult`
is returned. -/
theorem C10_relative_to_after_write (env : LdaEnv) (jd : List String)
    (k a fn : String) (c : Citation) (rest : List Citation)
    (hk : resolve_api_key env.envKey env.settingsKey = some k)
    (hin : env.inputExists = true)
    (ha : answerTextOf env.resp = .ok a)
    (hc : extract_container_file_citations env.resp = .ok (c :: rest))
    (hf : safeFilenameJ c.filename = .ok fn)
    (hfn : fn ≠ "..")
    (hs : stripBase env.mediaRoot (resolveJoin jd fn) = none) :
    (runLdaFromCsv env jd).1 = .error .relativeToValueError ∧
    Event.write (resolveJoin jd fn) (env.download c.container_id c.file_id)
      ∈ (runLdaFromCsv env jd).2 := by
  have hw : writeHitsDir fn = false := by
    obtain ⟨s, rfl⟩ := safeFilenameJ_range hf
    simp only [writeHitsDir, Bool.or_eq_false_iff, beq_eq_false_iff_ne, ne_eq]
    exact ⟨⟨hfn, safe_filename_ne_dot s⟩, safe_filename_ne_empty s⟩
  simp only [runLdaFromCsv, hk, hin, ha, hc]
  simp only [persistLoop, hf, hw, hs]
  simp

/-- C10 (witness): the claim theorem applied at the concrete environment
whose media root `/media` does not contain the job directory `/other/dir`:
the run writes `/other/dir/out.png` and then fails. -/
theorem C10_witness :
    (runLdaFromCsv envC10 jdC10).1 = .error .relativeToValueError ∧
    Event.write ["other", "dir", "out.png"] [] ∈ (runLdaFromCsv envC10 jdC10).2 :=
  C10_relative_to_after_write envC10 jdC10 "k" "done" "out.png" citC10 []
    rfl rfl rfl rfl rfl (by decide) rfl
